import Mathlib

/-!
# Verification of the arbitrageSeeker core

Shallow embedding of the three core modules of the repository:

* `arbitrage_detector.py` — `ArbitrageDetector.__init__`, `check_opportunity`,
  `scan_all_matches`, `_validate_prices`, `_calculate_net_profit`;
* `market_matcher.py` — `MarketMatcher.find_matches`;
* `database.py` — `DatabaseManager.store_matches`, `get_all_matches`,
  `clear_all_matches`, `get_match_count`.

Python floats are modelled as `ℚ`; Python `None` as `Option`; a Python dict
field that may be absent as an `Option` field; functions that may raise as
`Except String`-valued functions.  A network price fetch is an input of type
`Option PriceQuote` (the venue gateway returns a quote or `None`), and the
per-pair body of the batch scan is a parameter `check` returning
`Except String (Option Opportunity)` (the `try` block may raise).  The SQLite
store is a list of rows together with a `broken` flag modelling an unreachable
or failing database; a query against a broken database raises, which each
`database.py` wrapper either re-raises or swallows exactly as the source does.
-/

/-! ## Configuration defaults (`config.py`, values with no environment override) -/

/-- `config.MIN_PROFIT_MARGIN` default `0.02`. -/
def MIN_PROFIT_MARGIN : ℚ := 2 / 100

/-- `config.KALSHI_FEE_PERCENT` default `0.007`. -/
def KALSHI_FEE_PERCENT : ℚ := 7 / 1000

/-- `config.POLYMARKET_GAS_FEE_USD` default `0.10`. -/
def POLYMARKET_GAS_FEE_USD : ℚ := 1 / 10

/-- `config.SIMILARITY_THRESHOLD` default `0.85`. -/
def SIMILARITY_THRESHOLD : ℚ := 85 / 100

/-- `config.MAX_POSITION_USD` default `1000`. -/
def MAX_POSITION_USD : ℚ := 1000

/-- Python `x or default` applied to an optional float parameter: `None` and
`0.0` are falsy, so both select the default; any nonzero value is kept.
This is the idiom on `arbitrage_detector.py` lines 30–32 and
`market_matcher.py` line 53. -/
def pyOrQ (v : Option ℚ) (d : ℚ) : ℚ :=
  match v with
  | none => d
  | some x => if x = 0 then d else x

/-! ## Arbitrage detector (`arbitrage_detector.py`) -/

/-- Result of a venue price fetch (`api_clients.get_polymarket_price` /
`get_kalshi_price` return a dict with `yes_price`/`no_price`, or `None`).
Fields are `Option ℚ` because `_validate_prices` explicitly re-checks
`price is None`. -/
structure PriceQuote where
  yes_price : Option ℚ
  no_price : Option ℚ
deriving Repr, DecidableEq

/-- The detector's three fee/threshold fields set in `__init__`. -/
structure ArbitrageDetector where
  min_profit_margin : ℚ
  kalshi_fee : ℚ
  polymarket_gas_fee : ℚ
deriving Repr, DecidableEq

/-- `ArbitrageDetector.__init__`: each argument defaults through Python `or`
to the config value (lines 30–32). -/
def mkArbitrageDetector (min_profit_margin kalshi_fee polymarket_gas_fee : Option ℚ) :
    ArbitrageDetector :=
  ⟨pyOrQ min_profit_margin MIN_PROFIT_MARGIN,
   pyOrQ kalshi_fee KALSHI_FEE_PERCENT,
   pyOrQ polymarket_gas_fee POLYMARKET_GAS_FEE_USD⟩

/-- One price from `_validate_prices`: not `None` and within `[0, 1]`. -/
def validPrice (p : Option ℚ) : Bool :=
  match p with
  | none => false
  | some x => decide (0 ≤ x) && decide (x ≤ 1)

/-- `ArbitrageDetector._validate_prices` (lines 194–216). -/
def validatePrices (poly_yes poly_no kalshi_yes kalshi_no : Option ℚ) : Bool :=
  validPrice poly_yes && validPrice poly_no && validPrice kalshi_yes && validPrice kalshi_no

/-- Gross margin of a strategy: `1 - cost` (lines 87 and 91; spec glossary). -/
def grossMargin (cost : ℚ) : ℚ := 1 - cost

/-- `ArbitrageDetector._calculate_net_profit` (lines 218–244): subtract the
Kalshi percentage fee on the cost basis and the fixed gas fee amortised over
`config.MAX_POSITION_USD` (the `hasattr` check succeeds, `config.py` line 36),
then floor at zero. -/
def calculateNetProfit (det : ArbitrageDetector) (gross_profit total_cost : ℚ) : ℚ :=
  let kalshi_fee_amount := total_cost * det.kalshi_fee
  let position_size := MAX_POSITION_USD
  let gas_fee_percent := det.polymarket_gas_fee / position_size
  let total_fee_percent := kalshi_fee_amount + gas_fee_percent
  max 0 (gross_profit - total_fee_percent)

/-- The two strategies of `check_opportunity`. -/
inductive StrategyType where
  | yesNo
  | noYes
deriving Repr, DecidableEq

/-- The opportunity dict built at lines 101–113 / 120–132 (numeric and
identifying fields; the free-text context fields are omitted). For a
`yesNo` opportunity the legs are `polymarket_yes_price` / `kalshi_no_price`,
for `noYes` they are `polymarket_no_price` / `kalshi_yes_price`. -/
structure Opportunity where
  type : StrategyType
  polymarket_id : String
  kalshi_ticker : String
  polymarket_leg_price : ℚ
  kalshi_leg_price : ℚ
  gross_profit_margin : ℚ
  net_profit_margin : ℚ
  total_cost : ℚ
deriving Repr, DecidableEq

/-- Lines 85–132 of `check_opportunity`: strategy costs, gross margins,
strict-greater strategy selection, net-profit threshold test. -/
def checkOpportunityCore (det : ArbitrageDetector) (polymarket_id kalshi_ticker : String)
    (poly_yes poly_no kalshi_yes kalshi_no : ℚ) : Option Opportunity :=
  let yes_no_cost := poly_yes + kalshi_no
  let yes_no_profit := 1 - yes_no_cost
  let no_yes_cost := poly_no + kalshi_yes
  let no_yes_profit := 1 - no_yes_cost
  if yes_no_profit > no_yes_profit ∧ yes_no_profit > 0 then
    let net_profit := calculateNetProfit det yes_no_profit yes_no_cost
    if net_profit ≥ det.min_profit_margin then
      some ⟨.yesNo, polymarket_id, kalshi_ticker, poly_yes, kalshi_no,
            yes_no_profit, net_profit, yes_no_cost⟩
    else none
  else if no_yes_profit > 0 then
    let net_profit := calculateNetProfit det no_yes_profit no_yes_cost
    if net_profit ≥ det.min_profit_margin then
      some ⟨.noYes, polymarket_id, kalshi_ticker, poly_no, kalshi_yes,
            no_yes_profit, net_profit, no_yes_cost⟩
    else none
  else none

/-- `ArbitrageDetector.check_opportunity` (lines 39–145), with the two live
fetches passed in as arguments: `None` from either fetch, a missing price,
or a price outside `[0, 1]` short-circuits to `none`. -/
def checkOpportunity (det : ArbitrageDetector) (polymarket_id kalshi_ticker : String)
    (poly_prices kalshi_prices : Option PriceQuote) : Option Opportunity :=
  match poly_prices with
  | none => none
  | some pq =>
    match kalshi_prices with
    | none => none
    | some kq =>
      match pq.yes_price, pq.no_price, kq.yes_price, kq.no_price with
      | some poly_yes, some poly_no, some kalshi_yes, some kalshi_no =>
        if validatePrices (some poly_yes) (some poly_no) (some kalshi_yes) (some kalshi_no) then
          checkOpportunityCore det polymarket_id kalshi_ticker
            poly_yes poly_no kalshi_yes kalshi_no
        else none
      | _, _, _, _ => none

/-- A stored matched pair as consumed by `scan_all_matches`. -/
structure MatchedPair where
  polymarket_id : String
  kalshi_ticker : String
deriving Repr, DecidableEq

/-- `ArbitrageDetector.scan_all_matches` (lines 147–192): the per-pair `try`
body is the parameter `check` (it may raise, modelled by `Except`); an
exception is caught and the loop continues; `None` results are dropped;
found opportunities are appended in iteration order. -/
def scanAllMatches (check : MatchedPair → Except String (Option Opportunity)) :
    List MatchedPair → List Opportunity
  | [] => []
  | m :: rest =>
    match check m with
    | .error _ => scanAllMatches check rest
    | .ok none => scanAllMatches check rest
    | .ok (some o) => o :: scanAllMatches check rest

/-! ## Match store (`database.py`) -/

/-- A row of the `matched_markets` table (surrogate id and timestamp omitted;
rows are kept in insertion order, so "most recent first" is `List.reverse`). -/
structure MatchRow where
  polymarket_question : String
  kalshi_title : String
  polymarket_id : String
  kalshi_ticker : String
  similarity_score : Option ℚ
deriving Repr, DecidableEq

/-- The SQLite database behind `DatabaseManager`: its rows plus a `broken`
flag modelling an unreachable or failing backend (every query against a
broken database raises). -/
structure DatabaseManager where
  broken : Bool
  rows : List MatchRow
deriving Repr, DecidableEq

/-- The `UNIQUE(polymarket_id, kalshi_ticker)` constraint of
`initialize_schema` (line 69): does some row already carry this key? -/
def hasMatchKey (rows : List MatchRow) (pid kt : String) : Bool :=
  rows.any (fun r => r.polymarket_id == pid && r.kalshi_ticker == kt)

/-- One `INSERT OR IGNORE` (lines 112–123): a duplicate key is ignored,
a new key is appended; the `Bool` is `cursor.rowcount > 0`. -/
def insertOrIgnore (rows : List MatchRow) (m : MatchRow) : List MatchRow × Bool :=
  if hasMatchKey rows m.polymarket_id m.kalshi_ticker then (rows, false)
  else (rows ++ [m], true)

/-- The insert loop of `store_matches` (lines 110–130) over a healthy
database: final row list and `stored_count`. -/
def storeMatchesRows : List MatchRow → List MatchRow → List MatchRow × Nat
  | rows, [] => (rows, 0)
  | rows, m :: ms =>
    let step := insertOrIgnore rows m
    let rest := storeMatchesRows step.1 ms
    (rest.1, (if step.2 then 1 else 0) + rest.2)

/-- `DatabaseManager.store_matches` (lines 89–138): re-raises on database
failure, otherwise returns `stored_count` and the updated store. -/
def storeMatches (db : DatabaseManager) (ms : List MatchRow) :
    Except String (Nat × DatabaseManager) :=
  if db.broken then .error "Database error"
  else
    let res := storeMatchesRows db.rows ms
    .ok (res.2, ⟨db.broken, res.1⟩)

/-- `DatabaseManager.get_all_matches` (lines 140–176): re-raises on database
failure, otherwise all rows ordered by creation time, most recent first. -/
def getAllMatches (db : DatabaseManager) : Except String (List MatchRow) :=
  if db.broken then .error "Database error" else .ok db.rows.reverse

/-- `DatabaseManager.clear_all_matches` (lines 242–259): re-raises on
database failure, otherwise deletes every row and returns the count. -/
def clearAllMatches (db : DatabaseManager) : Except String (Nat × DatabaseManager) :=
  if db.broken then .error "Database error" else .ok (db.rows.length, ⟨db.broken, []⟩)

/-- The `SELECT COUNT(*)` query inside `get_match_count`: raises on a broken
database, otherwise returns the row count. -/
def countQuery (db : DatabaseManager) : Except String Nat :=
  if db.broken then .error "Database error" else .ok db.rows.length

/-- `DatabaseManager.get_match_count` (lines 261–277): the `except` branch
swallows the error and returns `0`. -/
def getMatchCount (db : DatabaseManager) : Nat :=
  match countQuery db with
  | .ok n => n
  | .error _ => 0

/-! ## Market matcher (`market_matcher.py`) -/

/-- A Polymarket market dict as used by `find_matches`: optional `question`
and `condition_id` fields. -/
structure PolyMarket where
  question : Option String
  condition_id : Option String
deriving Repr, DecidableEq

/-- A Kalshi market dict as used by `find_matches`: optional `title`,
`subtitle` and `ticker` fields. -/
structure KalshiMarket where
  title : Option String
  subtitle : Option String
  ticker : Option String
deriving Repr, DecidableEq

/-- Lines 81–83: the embedded text is the title, extended by the subtitle
when that key is present and truthy (a non-empty string). -/
def kalshiFullTitle (t : String) (sub : Option String) : String :=
  match sub with
  | some s => if s ≠ "" then t ++ " " ++ s else t
  | none => t

/-- Lines 67–73: keep the markets carrying a `question`, paired with that
question (the parallel lists `poly_questions` / `poly_market_map`). -/
def polyFiltered (ps : List PolyMarket) : List (String × PolyMarket) :=
  ps.filterMap (fun p =>
    match p.question with
    | some q => some (q, p)
    | none => none)

/-- Lines 75–86: keep the markets carrying a `title`, paired with the full
embedded text (the parallel lists `kalshi_titles` / `kalshi_market_map`). -/
def kalshiFiltered (ks : List KalshiMarket) : List (String × KalshiMarket) :=
  ks.filterMap (fun k =>
    match k.title with
    | some t => some (kalshiFullTitle t k.subtitle, k)
    | none => none)

/-- Index of the first maximal element of a score list, exactly the
semantics of `max(range(n), key=lambda j: scores[j])` at lines 110–113
(Python `max` keeps the earlier element on ties). -/
def argmaxFirst : List ℚ → Nat
  | [] => 0
  | [_] => 0
  | a :: b :: rest =>
    let j := argmaxFirst (b :: rest)
    if (b :: rest).getD j 0 > a then j + 1 else 0

/-- The emitted match dict (lines 120–126). -/
structure MatchCandidate where
  polymarket_question : String
  kalshi_title : String
  polymarket_id : Option String
  kalshi_ticker : Option String
  similarity_score : ℚ
deriving Repr, DecidableEq

/-- The per-source-market body of the loop at lines 105–126: score every
target text, take the first-maximal index, and emit a candidate only when
the best score reaches the threshold. -/
def candidateFor (sim : String → String → ℚ) (threshold : ℚ)
    (kf : List (String × KalshiMarket)) (entry : String × PolyMarket) :
    Option MatchCandidate :=
  let scores := kf.map (fun kt => sim entry.1 kt.1)
  let best_match_index := argmaxFirst scores
  let best_match_score := scores.getD best_match_index 0
  if best_match_score ≥ threshold then
    match kf.get? best_match_index with
    | some kt =>
      some ⟨entry.1,
            (match kt.2.title with | some t => t | none => ""),
            entry.2.condition_id, kt.2.ticker, best_match_score⟩
    | none => none
  else none

/-- `MarketMatcher.find_matches` (lines 36–136), with the embedding model's
cosine similarity abstracted as `sim` over the embedded texts: empty-input
and empty-after-filtering guards, then one best-match candidate attempt per
usable source market. -/
def findMatches (sim : String → String → ℚ) (polymarket_markets : List PolyMarket)
    (kalshi_markets : List KalshiMarket) (similarity_threshold : Option ℚ) :
    List MatchCandidate :=
  let threshold := pyOrQ similarity_threshold SIMILARITY_THRESHOLD
  if polymarket_markets.isEmpty then []
  else if kalshi_markets.isEmpty then []
  else
    let pf := polyFiltered polymarket_markets
    let kf := kalshiFiltered kalshi_markets
    if pf.isEmpty || kf.isEmpty then []
    else pf.filterMap (candidateFor sim threshold kf)

/-! ## Detector lemmas -/

lemma validatePrices_eq_true_iff (a b c d : ℚ) :
    validatePrices (some a) (some b) (some c) (some d) = true ↔
      ((0 ≤ a ∧ a ≤ 1) ∧ (0 ≤ b ∧ b ≤ 1) ∧ (0 ≤ c ∧ c ≤ 1) ∧ (0 ≤ d ∧ d ≤ 1)) := by
  simp [validatePrices, validPrice, and_assoc]

lemma checkOpportunity_valid_eq (det : ArbitrageDetector) (pid kt : String)
    (py pn ky kn : ℚ)
    (hpy : 0 ≤ py ∧ py ≤ 1) (hpn : 0 ≤ pn ∧ pn ≤ 1)
    (hky : 0 ≤ ky ∧ ky ≤ 1) (hkn : 0 ≤ kn ∧ kn ≤ 1) :
    checkOpportunity det pid kt (some ⟨some py, some pn⟩) (some ⟨some ky, some kn⟩) =
      checkOpportunityCore det pid kt py pn ky kn := by
  have hv : validatePrices (some py) (some pn) (some ky) (some kn) = true :=
    (validatePrices_eq_true_iff py pn ky kn).2 ⟨hpy, hpn, hky, hkn⟩
  simp [checkOpportunity, hv]

lemma checkOpportunityCore_yesNo_eq (det : ArbitrageDetector) (pid kt : String)
    (py pn ky kn : ℚ)
    (h1 : 1 - (py + kn) > 1 - (pn + ky)) (h2 : 1 - (py + kn) > 0) :
    checkOpportunityCore det pid kt py pn ky kn =
      (if calculateNetProfit det (1 - (py + kn)) (py + kn) ≥ det.min_profit_margin then
        some ⟨.yesNo, pid, kt, py, kn, 1 - (py + kn),
              calculateNetProfit det (1 - (py + kn)) (py + kn), py + kn⟩
      else none) := by
  simp only [checkOpportunityCore]
  rw [if_pos ⟨h1, h2⟩]

lemma checkOpportunityCore_noYes_eq (det : ArbitrageDetector) (pid kt : String)
    (py pn ky kn : ℚ)
    (h1 : ¬(1 - (py + kn) > 1 - (pn + ky) ∧ 1 - (py + kn) > 0))
    (h2 : 1 - (pn + ky) > 0) :
    checkOpportunityCore det pid kt py pn ky kn =
      (if calculateNetProfit det (1 - (pn + ky)) (pn + ky) ≥ det.min_profit_margin then
        some ⟨.noYes, pid, kt, pn, ky, 1 - (pn + ky),
              calculateNetProfit det (1 - (pn + ky)) (pn + ky), pn + ky⟩
      else none) := by
  simp only [checkOpportunityCore]
  rw [if_neg h1, if_pos h2]

lemma checkOpportunityCore_none_eq (det : ArbitrageDetector) (pid kt : String)
    (py pn ky kn : ℚ)
    (h1 : ¬(1 - (py + kn) > 1 - (pn + ky) ∧ 1 - (py + kn) > 0))
    (h2 : ¬(1 - (pn + ky) > 0)) :
    checkOpportunityCore det pid kt py pn ky kn = none := by
  simp only [checkOpportunityCore]
  rw [if_neg h1, if_neg h2]

lemma calculateNetProfit_eq (det : ArbitrageDetector) (g c : ℚ) :
    calculateNetProfit det g c =
      max 0 (g - c * det.kalshi_fee - det.polymarket_gas_fee / MAX_POSITION_USD) := by
  simp only [calculateNetProfit]
  congr 1
  ring

lemma checkOpportunityCore_some_fields (det : ArbitrageDetector) (pid kt : String)
    (py pn ky kn : ℚ) (o : Opportunity)
    (h : checkOpportunityCore det pid kt py pn ky kn = some o) :
    o.gross_profit_margin = grossMargin o.total_cost ∧
    o.net_profit_margin = calculateNetProfit det o.gross_profit_margin o.total_cost ∧
    o.net_profit_margin ≥ det.min_profit_margin ∧
    0 ≤ o.net_profit_margin := by
  simp only [checkOpportunityCore] at h
  split_ifs at h with h1 h2 h3 h4 <;>
    first
    | exact Option.noConfusion h
    | · obtain rfl := Option.some.inj h
        refine ⟨rfl, rfl, by assumption, ?_⟩
        simp only [calculateNetProfit]
        exact le_max_left 0 _

lemma checkOpportunity_some_core (det : ArbitrageDetector) (pid kt : String)
    (pp kp : Option PriceQuote) (o : Opportunity)
    (h : checkOpportunity det pid kt pp kp = some o) :
    ∃ py pn ky kn, checkOpportunityCore det pid kt py pn ky kn = some o := by
  cases pp with
  | none => exact Option.noConfusion h
  | some pq =>
    cases kp with
    | none => exact Option.noConfusion h
    | some kq =>
      obtain ⟨y1, n1⟩ := pq
      obtain ⟨ky, kn⟩ := kq
      cases y1 with
      | none => exact Option.noConfusion h
      | some py =>
        cases n1 with
        | none => exact Option.noConfusion h
        | some pn =>
          cases ky with
          | none => exact Option.noConfusion h
          | some qy =>
            cases kn with
            | none => exact Option.noConfusion h
            | some qn =>
              simp only [checkOpportunity] at h
              split_ifs at h
              exact ⟨py, pn, qy, qn, h⟩

/-- C1: in `check_opportunity` the YES_NO strategy is taken only when its
gross margin strictly exceeds both the NO_YES gross margin and zero;
otherwise NO_YES is taken when its gross margin is strictly positive;
otherwise there is no opportunity.  In particular on an exact positive tie
of the two gross margins the NO_YES branch is the one evaluated, and any
reported opportunity is of type NO_YES. -/
theorem checkOpportunity_strategy_selection (det : ArbitrageDetector)
    (pid kt : String) (py pn ky kn : ℚ)
    (hpy : 0 ≤ py ∧ py ≤ 1) (hpn : 0 ≤ pn ∧ pn ≤ 1)
    (hky : 0 ≤ ky ∧ ky ≤ 1) (hkn : 0 ≤ kn ∧ kn ≤ 1) :
    (grossMargin (py + kn) > grossMargin (pn + ky) → grossMargin (py + kn) > 0 →
      checkOpportunity det pid kt (some ⟨some py, some pn⟩) (some ⟨some ky, some kn⟩) =
        (if calculateNetProfit det (grossMargin (py + kn)) (py + kn) ≥ det.min_profit_margin then
          some ⟨.yesNo, pid, kt, py, kn, grossMargin (py + kn),
                calculateNetProfit det (grossMargin (py + kn)) (py + kn), py + kn⟩
        else none)) ∧
    (¬(grossMargin (py + kn) > grossMargin (pn + ky) ∧ grossMargin (py + kn) > 0) →
      grossMargin (pn + ky) > 0 →
      checkOpportunity det pid kt (some ⟨some py, some pn⟩) (some ⟨some ky, some kn⟩) =
        (if calculateNetProfit det (grossMargin (pn + ky)) (pn + ky) ≥ det.min_profit_margin then
          some ⟨.noYes, pid, kt, pn, ky, grossMargin (pn + ky),
                calculateNetProfit det (grossMargin (pn + ky)) (pn + ky), pn + ky⟩
        else none)) ∧
    (¬(grossMargin (py + kn) > grossMargin (pn + ky) ∧ grossMargin (py + kn) > 0) →
      ¬(grossMargin (pn + ky) > 0) →
      checkOpportunity det pid kt (some ⟨some py, some pn⟩) (some ⟨some ky, some kn⟩) = none) ∧
    (grossMargin (py + kn) = grossMargin (pn + ky) → grossMargin (py + kn) > 0 →
      ∀ o, checkOpportunity det pid kt (some ⟨some py, some pn⟩) (some ⟨some ky, some kn⟩) =
        some o → o.type = .noYes) := by
  simp only [grossMargin]
  have hc := checkOpportunity_valid_eq det pid kt py pn ky kn hpy hpn hky hkn
  refine ⟨?_, ?_, ?_, ?_⟩
  · intro h1 h2
    rw [hc, checkOpportunityCore_yesNo_eq det pid kt py pn ky kn h1 h2]
  · intro h1 h2
    rw [hc, checkOpportunityCore_noYes_eq det pid kt py pn ky kn h1 h2]
  · intro h1 h2
    rw [hc, checkOpportunityCore_none_eq det pid kt py pn ky kn h1 h2]
  · intro heq hpos o ho
    have h1 : ¬(1 - (py + kn) > 1 - (pn + ky) ∧ 1 - (py + kn) > 0) := by
      rintro ⟨hgt, -⟩
      rw [heq] at hgt
      exact lt_irrefl _ hgt
    have h2 : 1 - (pn + ky) > 0 := heq ▸ hpos
    rw [hc, checkOpportunityCore_noYes_eq det pid kt py pn ky kn h1 h2] at ho
    split_ifs at ho with hnet
    obtain rfl := Option.some.inj ho
    rfl

/-- Witness for C1: the spec's tie scenario, both gross margins equal to
`0.03`, lands in the NO_YES branch. -/
theorem checkOpportunity_strategy_selection_witness :
    checkOpportunity (mkArbitrageDetector none none none) "poly-1" "KALSHI-1"
        (some ⟨some (1/2), some (1/2)⟩) (some ⟨some (47/100), some (47/100)⟩) =
      (if calculateNetProfit (mkArbitrageDetector none none none)
            (grossMargin (1/2 + 47/100)) (1/2 + 47/100) ≥
          (mkArbitrageDetector none none none).min_profit_margin then
        some ⟨.noYes, "poly-1", "KALSHI-1", 1/2, 47/100, grossMargin (1/2 + 47/100),
              calculateNetProfit (mkArbitrageDetector none none none)
                (grossMargin (1/2 + 47/100)) (1/2 + 47/100), 1/2 + 47/100⟩
      else none) :=
  (checkOpportunity_strategy_selection (mkArbitrageDetector none none none)
      "poly-1" "KALSHI-1" (1/2) (1/2) (47/100) (47/100)
      (by norm_num) (by norm_num) (by norm_num) (by norm_num)).2.1
    (by norm_num [grossMargin]) (by norm_num [grossMargin])

/-- C2: for the selected strategy with cost `c` and gross margin
`1 - c`, an opportunity is returned iff
`max 0 (gross - c·kalshi_fee - gas_fee/position_size) ≥ min_profit_margin`;
the reported `net_profit_margin` is exactly that floored value, and a
reported net margin is never negative. -/
theorem checkOpportunity_net_floor (det : ArbitrageDetector)
    (pid kt : String) (py pn ky kn : ℚ)
    (hpy : 0 ≤ py ∧ py ≤ 1) (hpn : 0 ≤ pn ∧ pn ≤ 1)
    (hky : 0 ≤ ky ∧ ky ≤ 1) (hkn : 0 ≤ kn ∧ kn ≤ 1) :
    ((grossMargin (py + kn) > grossMargin (pn + ky) ∧ grossMargin (py + kn) > 0) →
      (((checkOpportunity det pid kt (some ⟨some py, some pn⟩)
            (some ⟨some ky, some kn⟩)).isSome = true) ↔
        max 0 (grossMargin (py + kn) - (py + kn) * det.kalshi_fee -
               det.polymarket_gas_fee / MAX_POSITION_USD) ≥ det.min_profit_margin) ∧
      (∀ o, checkOpportunity det pid kt (some ⟨some py, some pn⟩)
            (some ⟨some ky, some kn⟩) = some o →
        o.net_profit_margin =
          max 0 (grossMargin (py + kn) - (py + kn) * det.kalshi_fee -
                 det.polymarket_gas_fee / MAX_POSITION_USD))) ∧
    ((¬(grossMargin (py + kn) > grossMargin (pn + ky) ∧ grossMargin (py + kn) > 0) ∧
        grossMargin (pn + ky) > 0) →
      (((checkOpportunity det pid kt (some ⟨some py, some pn⟩)
            (some ⟨some ky, some kn⟩)).isSome = true) ↔
        max 0 (grossMargin (pn + ky) - (pn + ky) * det.kalshi_fee -
               det.polymarket_gas_fee / MAX_POSITION_USD) ≥ det.min_profit_margin) ∧
      (∀ o, checkOpportunity det pid kt (some ⟨some py, some pn⟩)
            (some ⟨some ky, some kn⟩) = some o →
        o.net_profit_margin =
          max 0 (grossMargin (pn + ky) - (pn + ky) * det.kalshi_fee -
                 det.polymarket_gas_fee / MAX_POSITION_USD))) ∧
    (∀ o, checkOpportunity det pid kt (some ⟨some py, some pn⟩)
          (some ⟨some ky, some kn⟩) = some o →
      o.net_profit_margin ≥ det.min_profit_margin ∧ 0 ≤ o.net_profit_margin) := by
  simp only [grossMargin]
  have hc := checkOpportunity_valid_eq det pid kt py pn ky kn hpy hpn hky hkn
  refine ⟨?_, ?_, ?_⟩
  · rintro ⟨h1, h2⟩
    rw [hc, checkOpportunityCore_yesNo_eq det pid kt py pn ky kn h1 h2,
      ← calculateNetProfit_eq det (1 - (py + kn)) (py + kn)]
    constructor
    · split_ifs with h <;> simp [h]
    · split_ifs with h
      · intro o ho
        obtain rfl := Option.some.inj ho
        rfl
      · intro o ho
        exact ho.elim
  · rintro ⟨h1, h2⟩
    rw [hc, checkOpportunityCore_noYes_eq det pid kt py pn ky kn h1 h2,
      ← calculateNetProfit_eq det (1 - (pn + ky)) (pn + ky)]
    constructor
    · split_ifs with h <;> simp [h]
    · split_ifs with h
      · intro o ho
        obtain rfl := Option.some.inj ho
        rfl
      · intro o ho
        exact ho.elim
  · intro o ho
    obtain ⟨py2, pn2, ky2, kn2, hcore⟩ := checkOpportunity_some_core det pid kt _ _ o ho
    have hf := checkOpportunityCore_some_fields det pid kt py2 pn2 ky2 kn2 o hcore
    exact ⟨hf.2.2.1, hf.2.2.2⟩

/-- Witness for C2: the spec's end-to-end scenario 1 (source-yes 0.40,
target-no 0.55, default fees), where the YES_NO strategy is selected. -/
theorem checkOpportunity_net_floor_witness :
    ((checkOpportunity (mkArbitrageDetector none none none) "poly-1" "KALSHI-1"
        (some ⟨some (40/100), some (90/100)⟩)
        (some ⟨some (90/100), some (55/100)⟩)).isSome = true) ↔
      max 0 (grossMargin (40/100 + 55/100) -
             (40/100 + 55/100) * (mkArbitrageDetector none none none).kalshi_fee -
             (mkArbitrageDetector none none none).polymarket_gas_fee / MAX_POSITION_USD) ≥
        (mkArbitrageDetector none none none).min_profit_margin :=
  ((checkOpportunity_net_floor (mkArbitrageDetector none none none) "poly-1" "KALSHI-1"
      (40/100) (90/100) (90/100) (55/100)
      (by norm_num) (by norm_num) (by norm_num) (by norm_num)).1
    ⟨by norm_num [grossMargin], by norm_num [grossMargin]⟩).1

/-- C3: the two gross margins are computed independently as `1 - cost`, so
for any price quadruple in `[0,1]^4` their sum is
`2 - (source_yes + source_no + target_yes + target_no)`; and every reported
opportunity carries `gross_profit_margin = 1 - total_cost`. -/
theorem grossMargin_sum_identity :
    (∀ source_yes source_no target_yes target_no : ℚ,
      0 ≤ source_yes ∧ source_yes ≤ 1 → 0 ≤ source_no ∧ source_no ≤ 1 →
      0 ≤ target_yes ∧ target_yes ≤ 1 → 0 ≤ target_no ∧ target_no ≤ 1 →
      grossMargin (source_yes + target_no) + grossMargin (source_no + target_yes) =
        2 - (source_yes + source_no + target_yes + target_no)) ∧
    (∀ det pid kt pp kp o, checkOpportunity det pid kt pp kp = some o →
      o.gross_profit_margin = grossMargin o.total_cost) := by
  constructor
  · intro a b c d _ _ _ _
    simp only [grossMargin]
    ring
  · intro det pid kt pp kp o h
    obtain ⟨py, pn, ky, kn, hcore⟩ := checkOpportunity_some_core det pid kt pp kp o h
    exact (checkOpportunityCore_some_fields det pid kt py pn ky kn o hcore).1

/-- Witness for C3 at the all-halves quadruple. -/
theorem grossMargin_sum_identity_witness :
    grossMargin (1/2 + 1/2) + grossMargin (1/2 + 1/2) = 2 - (1/2 + 1/2 + 1/2 + 1/2) :=
  grossMargin_sum_identity.1 (1/2) (1/2) (1/2) (1/2)
    (by norm_num) (by norm_num) (by norm_num) (by norm_num)

/-- C4: `check_opportunity` returns `None` (without raising) on a failed
fetch from either venue or on any price outside `[0,1]`; and
`scan_all_matches` catches every per-pair exception and returns exactly the
non-`None` results in pair iteration order, so one bad pair never
suppresses the results of the remaining pairs. -/
theorem checkOpportunity_scan_error_handling :
    (∀ det pid kt kp, checkOpportunity det pid kt none kp = none) ∧
    (∀ det pid kt pq, checkOpportunity det pid kt (some pq) none = none) ∧
    (∀ det pid kt (py pn ky kn : ℚ),
      (py < 0 ∨ 1 < py ∨ pn < 0 ∨ 1 < pn ∨ ky < 0 ∨ 1 < ky ∨ kn < 0 ∨ 1 < kn) →
      checkOpportunity det pid kt (some ⟨some py, some pn⟩) (some ⟨some ky, some kn⟩) =
        none) ∧
    (∀ check pairs, scanAllMatches check pairs =
      pairs.filterMap (fun m => ((check m).toOption).join)) ∧
    (∀ check p pairs e, check p = .error e →
      scanAllMatches check (p :: pairs) = scanAllMatches check pairs) := by
  refine ⟨?_, ?_, ?_, ?_, ?_⟩
  · intro det pid kt kp
    rfl
  · intro det pid kt pq
    rfl
  · intro det pid kt py pn ky kn h
    have hv : validatePrices (some py) (some pn) (some ky) (some kn) = false := by
      rw [Bool.eq_false_iff]
      intro hv
      obtain ⟨⟨a1, a2⟩, ⟨b1, b2⟩, ⟨c1, c2⟩, ⟨d1, d2⟩⟩ :=
        (validatePrices_eq_true_iff py pn ky kn).1 hv
      rcases h with h | h | h | h | h | h | h | h <;> linarith
    simp [checkOpportunity, hv]
  · intro check pairs
    induction pairs with
    | nil => rfl
    | cons m rest ih =>
      cases hm : check m with
      | error e => simp [scanAllMatches, hm, Except.toOption, ih]
      | ok v =>
        cases v with
        | none => simp [scanAllMatches, hm, Except.toOption, ih]
        | some o => simp [scanAllMatches, hm, Except.toOption, ih]
  · intro check p pairs e h
    simp [scanAllMatches, h]

/-- Witness for C4: a Polymarket yes-price of `1.5` is rejected, and a pair
whose check raises contributes nothing to the batch. -/
theorem checkOpportunity_scan_error_handling_witness :
    checkOpportunity (mkArbitrageDetector none none none) "poly-1" "KALSHI-1"
        (some ⟨some (3/2), some (1/2)⟩) (some ⟨some (1/2), some (1/2)⟩) = none ∧
    scanAllMatches (fun _ => .error "boom") [⟨"poly-1", "KALSHI-1"⟩] =
      scanAllMatches (fun _ => .error "boom") [] :=
  ⟨checkOpportunity_scan_error_handling.2.2.1 (mkArbitrageDetector none none none)
      "poly-1" "KALSHI-1" (3/2) (1/2) (1/2) (1/2) (Or.inr (Or.inl (by norm_num))),
   checkOpportunity_scan_error_handling.2.2.2.2 (fun _ => .error "boom")
      ⟨"poly-1", "KALSHI-1"⟩ [] "boom" rfl⟩

/-! ## Match store lemmas -/

lemma hasMatchKey_append (rows : List MatchRow) (m : MatchRow) (pid kt : String)
    (h : hasMatchKey rows pid kt = true) :
    hasMatchKey (rows ++ [m]) pid kt = true := by
  simp only [hasMatchKey, List.any_append, Bool.or_eq_true]
  exact Or.inl h

lemma hasMatchKey_last (rows : List MatchRow) (m : MatchRow) :
    hasMatchKey (rows ++ [m]) m.polymarket_id m.kalshi_ticker = true := by
  simp only [hasMatchKey, List.any_append, Bool.or_eq_true]
  right
  simp

lemma storeMatchesRows_preserves_key (ms : List MatchRow) :
    ∀ rows pid kt, hasMatchKey rows pid kt = true →
      hasMatchKey (storeMatchesRows rows ms).1 pid kt = true := by
  induction ms with
  | nil =>
    intro rows pid kt h
    simpa [storeMatchesRows] using h
  | cons m ms ih =>
    intro rows pid kt h
    simp only [storeMatchesRows]
    apply ih
    by_cases hmem : hasMatchKey rows m.polymarket_id m.kalshi_ticker = true
    · simpa [insertOrIgnore, hmem] using h
    · simp only [insertOrIgnore, hmem, if_false, Bool.false_eq_true]
      exact hasMatchKey_append rows m pid kt h

lemma storeMatchesRows_has_all (ms : List MatchRow) :
    ∀ rows, ∀ m ∈ ms,
      hasMatchKey (storeMatchesRows rows ms).1 m.polymarket_id m.kalshi_ticker = true := by
  induction ms with
  | nil =>
    intro rows m hm
    exact absurd hm (List.not_mem_nil m)
  | cons a ms ih =>
    intro rows m hm
    simp only [storeMatchesRows]
    rcases List.mem_cons.1 hm with rfl | hm
    · apply storeMatchesRows_preserves_key
      by_cases hmem : hasMatchKey rows m.polymarket_id m.kalshi_ticker = true
      · simp [insertOrIgnore, hmem]
      · simp only [insertOrIgnore, hmem, if_false, Bool.false_eq_true]
        exact hasMatchKey_last rows m
    · exact ih _ m hm

lemma storeMatchesRows_noop (ms : List MatchRow) :
    ∀ rows, (∀ m ∈ ms, hasMatchKey rows m.polymarket_id m.kalshi_ticker = true) →
      storeMatchesRows rows ms = (rows, 0) := by
  induction ms with
  | nil =>
    intro rows _
    rfl
  | cons a ms ih =>
    intro rows h
    have ha : hasMatchKey rows a.polymarket_id a.kalshi_ticker = true := h a (by simp)
    simp only [storeMatchesRows, insertOrIgnore, ha, if_true]
    rw [ih rows (fun m hm => h m (List.mem_cons_of_mem a hm))]
    simp

/-- C5: `store_matches` is idempotent: a second call with the identical
candidate list inserts nothing (`INSERT OR IGNORE` on the
`(polymarket_id, kalshi_ticker)` unique key is a no-op, not an error),
returns a stored count of `0`, leaves the store unchanged, and leaves
`get_match_count` unchanged. -/
theorem storeMatches_idempotent (db : DatabaseManager) (ms : List MatchRow)
    (n : ℕ) (db₂ : DatabaseManager)
    (hb : db.broken = false)
    (h : storeMatches db ms = .ok (n, db₂)) :
    storeMatches db₂ ms = .ok (0, db₂) ∧
    (∀ k db₃, storeMatches db₂ ms = .ok (k, db₃) →
      k = 0 ∧ getMatchCount db₃ = getMatchCount db₂) := by
  simp only [storeMatches, hb, Bool.false_eq_true, if_false] at h
  obtain ⟨hn, hdb⟩ := Prod.mk.injEq .. ▸ Except.ok.inj h
  subst hdb
  have hall : ∀ m ∈ ms, hasMatchKey (storeMatchesRows db.rows ms).1
      m.polymarket_id m.kalshi_ticker = true :=
    storeMatchesRows_has_all ms db.rows
  have hmain : storeMatches ⟨false, (storeMatchesRows db.rows ms).1⟩ ms =
      .ok (0, ⟨false, (storeMatchesRows db.rows ms).1⟩) := by
    simp only [storeMatches, Bool.false_eq_true, if_false]
    rw [storeMatchesRows_noop ms _ hall]
  refine ⟨hmain, ?_⟩
  intro k db₃ h2
  rw [hmain] at h2
  obtain ⟨hk, hdb3⟩ := Prod.mk.injEq .. ▸ Except.ok.inj h2
  exact ⟨hk.symm, by rw [hdb3]⟩

/-- Witness for C5: storing the same single-row list twice on an initially
empty store. -/
theorem storeMatches_idempotent_witness :
    storeMatches ⟨false, [⟨"Will X happen?", "X happens", "cond-1", "KX-1", none⟩]⟩
        [⟨"Will X happen?", "X happens", "cond-1", "KX-1", none⟩] =
      .ok (0, ⟨false, [⟨"Will X happen?", "X happens", "cond-1", "KX-1", none⟩]⟩) :=
  (storeMatches_idempotent ⟨false, []⟩
      [⟨"Will X happen?", "X happens", "cond-1", "KX-1", none⟩] 1
      ⟨false, [⟨"Will X happen?", "X happens", "cond-1", "KX-1", none⟩]⟩
      rfl (by rfl)).1

/-! ## Matcher lemmas -/

lemma argmaxFirst_lt_length : ∀ (l : List ℚ), l ≠ [] → argmaxFirst l < l.length := by
  intro l
  induction l with
  | nil =>
    intro h
    exact absurd rfl h
  | cons a t ih =>
    intro _
    cases t with
    | nil => simp [argmaxFirst]
    | cons b rest =>
      have hlt := ih (by simp)
      simp only [argmaxFirst]
      split
      · simp only [List.length_cons] at hlt ⊢
        omega
      · simp

lemma argmaxFirst_getD_le : ∀ (l : List ℚ), ∀ j < l.length,
    l.getD j 0 ≤ l.getD (argmaxFirst l) 0 := by
  intro l
  induction l with
  | nil =>
    intro j hj
    simp at hj
  | cons a t ih =>
    intro j hj
    cases t with
    | nil =>
      have hj0 : j = 0 := by
        simp only [List.length_cons, List.length_nil] at hj
        omega
      subst hj0
      simp [argmaxFirst]
    | cons b rest =>
      simp only [argmaxFirst]
      by_cases hM : (b :: rest).getD (argmaxFirst (b :: rest)) 0 > a
      · rw [if_pos hM, List.getD_cons_succ]
        cases j with
        | zero =>
          simpa using le_of_lt hM
        | succ k =>
          rw [List.getD_cons_succ]
          exact ih k (by simpa using hj)
      · rw [if_neg hM]
        push_neg at hM
        cases j with
        | zero => simp
        | succ k =>
          rw [List.getD_cons_succ, List.getD_cons_zero]
          exact le_trans (ih k (by simpa using hj)) hM

lemma argmaxFirst_strict_before : ∀ (l : List ℚ), ∀ j < argmaxFirst l,
    l.getD j 0 < l.getD (argmaxFirst l) 0 := by
  intro l
  induction l with
  | nil =>
    intro j hj
    simp [argmaxFirst] at hj
  | cons a t ih =>
    intro j hj
    cases t with
    | nil => simp [argmaxFirst] at hj
    | cons b rest =>
      simp only [argmaxFirst] at hj ⊢
      by_cases hM : (b :: rest).getD (argmaxFirst (b :: rest)) 0 > a
      · rw [if_pos hM] at hj ⊢
        rw [List.getD_cons_succ]
        cases j with
        | zero => simpa using hM
        | succ k =>
          rw [List.getD_cons_succ]
          exact ih k (Nat.lt_of_succ_lt_succ hj)
      · rw [if_neg hM] at hj
        exact absurd hj (Nat.not_lt_zero j)

lemma candidateFor_emits (sim : String → String → ℚ) (thr : ℚ)
    (kf : List (String × KalshiMarket)) (q : String) (p : PolyMarket)
    (hkf : kf ≠ [])
    (hsc : (kf.map (fun x => sim q x.1)).getD
        (argmaxFirst (kf.map (fun x => sim q x.1))) 0 ≥ thr) :
    ∃ c, candidateFor sim thr kf (q, p) = some c ∧
      c.similarity_score = (kf.map (fun x => sim q x.1)).getD
        (argmaxFirst (kf.map (fun x => sim q x.1))) 0 := by
  have hlen : argmaxFirst (kf.map (fun x => sim q x.1)) < kf.length := by
    have h1 := argmaxFirst_lt_length (kf.map (fun x => sim q x.1)) (by simpa using hkf)
    simpa using h1
  obtain ⟨kt, hkt⟩ : ∃ kt, kf.get? (argmaxFirst (kf.map (fun x => sim q x.1))) = some kt := by
    cases hg : kf.get? (argmaxFirst (kf.map (fun x => sim q x.1))) with
    | none =>
      rw [List.get?_eq_none] at hg
      omega
    | some kt => exact ⟨kt, rfl⟩
  refine ⟨⟨q, (match kt.2.title with | some t => t | none => ""),
      p.condition_id, kt.2.ticker,
      (kf.map (fun x => sim q x.1)).getD
        (argmaxFirst (kf.map (fun x => sim q x.1))) 0⟩, ?_, rfl⟩
  simp only [candidateFor]
  rw [if_pos hsc, hkt]

lemma findMatches_eq_filterMap (sim : String → String → ℚ)
    (polys : List PolyMarket) (kalshis : List KalshiMarket) (θ : Option ℚ)
    (hpf : polyFiltered polys ≠ []) (hkf : kalshiFiltered kalshis ≠ []) :
    findMatches sim polys kalshis θ =
      (polyFiltered polys).filterMap
        (candidateFor sim (pyOrQ θ SIMILARITY_THRESHOLD) (kalshiFiltered kalshis)) := by
  cases polys with
  | nil => simp [polyFiltered] at hpf
  | cons p ps =>
    cases kalshis with
    | nil => simp [kalshiFiltered] at hkf
    | cons k ks =>
      rw [← List.isEmpty_eq_false] at hpf hkf
      simp [findMatches, hpf, hkf]

/-- C6: a candidate pair whose best similarity score is exactly equal to the
threshold is accepted — the comparison at line 117 is `≥`, not `>` — both at
the level of the per-source-market candidate and of the full `find_matches`
result. -/
theorem findMatches_threshold_boundary :
    (∀ sim (thr : ℚ) kf (q : String) (p : PolyMarket), kf ≠ [] →
      (kf.map (fun x => sim q x.1)).getD
          (argmaxFirst (kf.map (fun x => sim q x.1))) 0 = thr →
      ∃ c, candidateFor sim thr kf (q, p) = some c ∧ c.similarity_score = thr) ∧
    (∀ sim polys kalshis θ (q : String) (p : PolyMarket),
      (q, p) ∈ polyFiltered polys → kalshiFiltered kalshis ≠ [] →
      ((kalshiFiltered kalshis).map (fun x => sim q x.1)).getD
          (argmaxFirst ((kalshiFiltered kalshis).map (fun x => sim q x.1))) 0 =
        pyOrQ θ SIMILARITY_THRESHOLD →
      ∃ c ∈ findMatches sim polys kalshis θ,
        c.similarity_score = pyOrQ θ SIMILARITY_THRESHOLD) := by
  have part1 : ∀ sim (thr : ℚ) kf (q : String) (p : PolyMarket), kf ≠ [] →
      (kf.map (fun x => sim q x.1)).getD
          (argmaxFirst (kf.map (fun x => sim q x.1))) 0 = thr →
      ∃ c, candidateFor sim thr kf (q, p) = some c ∧ c.similarity_score = thr := by
    intro sim thr kf q p hkf heq
    obtain ⟨c, hc, hscore⟩ := candidateFor_emits sim thr kf q p hkf (ge_of_eq heq)
    exact ⟨c, hc, by rw [hscore, heq]⟩
  refine ⟨part1, ?_⟩
  intro sim polys kalshis θ q p hmem hkf heq
  have hpf : polyFiltered polys ≠ [] := List.ne_nil_of_mem hmem
  obtain ⟨c, hc, hscore⟩ :=
    part1 sim (pyOrQ θ SIMILARITY_THRESHOLD) (kalshiFiltered kalshis) q p hkf heq
  refine ⟨c, ?_, hscore⟩
  rw [findMatches_eq_filterMap sim polys kalshis θ hpf hkf]
  exact List.mem_filterMap.2 ⟨(q, p), hmem, hc⟩

/-- Witness for C6: a single target whose similarity is exactly `0.85`
against a threshold of exactly `0.85` is accepted. -/
theorem findMatches_threshold_boundary_witness :
    ∃ c, candidateFor (fun _ _ => 85/100) (85/100)
        [("Title", (⟨some "Title", none, some "KT"⟩ : KalshiMarket))]
        ("q", (⟨some "q", some "c"⟩ : PolyMarket)) = some c ∧
      c.similarity_score = 85/100 :=
  findMatches_threshold_boundary.1 (fun _ _ => 85/100) (85/100)
    [("Title", (⟨some "Title", none, some "KT"⟩ : KalshiMarket))] "q"
    (⟨some "q", some "c"⟩ : PolyMarket) (by simp) (by rfl)

/-- C7: every usable source market yields at most one candidate, which is
built from the first-maximal similarity index (highest score; earlier index
wins ties); no mutual exclusivity is enforced, so two source markets can
claim the same target (closed example at the end). -/
theorem findMatches_best_match_policy :
    (∀ sim polys kalshis θ, (findMatches sim polys kalshis θ).length ≤ polys.length) ∧
    (∀ scores : List ℚ, scores ≠ [] →
      argmaxFirst scores < scores.length ∧
      (∀ j < scores.length, scores.getD j 0 ≤ scores.getD (argmaxFirst scores) 0) ∧
      (∀ j < argmaxFirst scores, scores.getD j 0 < scores.getD (argmaxFirst scores) 0)) ∧
    (∀ sim (thr : ℚ) kf entry c, candidateFor sim thr kf entry = some c →
      ∃ kt, kf.get? (argmaxFirst (kf.map (fun x => sim entry.1 x.1))) = some kt ∧
        c.kalshi_ticker = kt.2.ticker ∧
        c.similarity_score = (kf.map (fun x => sim entry.1 x.1)).getD
          (argmaxFirst (kf.map (fun x => sim entry.1 x.1))) 0) ∧
    ((findMatches (fun _ _ => 9/10)
        [⟨some "q1", some "c1"⟩, ⟨some "q2", some "c2"⟩]
        [⟨some "Title", none, some "KT"⟩] none).map (fun c => c.kalshi_ticker) =
      [some "KT", some "KT"]) := by
  refine ⟨?_, ?_, ?_, ?_⟩
  · intro sim polys kalshis θ
    cases polys with
    | nil => simp [findMatches]
    | cons p ps =>
      cases kalshis with
      | nil => simp [findMatches]
      | cons k ks =>
        simp only [findMatches, List.isEmpty_cons, Bool.false_eq_true, if_false]
        split
        · simp
        · have h1 := List.length_filterMap_le
            (candidateFor sim (pyOrQ θ SIMILARITY_THRESHOLD) (kalshiFiltered (k :: ks)))
            (polyFiltered (p :: ps))
          have h2 : (polyFiltered (p :: ps)).length ≤ (p :: ps).length := by
            simp only [polyFiltered]
            exact List.length_filterMap_le _ _
          exact le_trans h1 h2
  · intro scores hs
    exact ⟨argmaxFirst_lt_length scores hs,
      fun j hj => argmaxFirst_getD_le scores j hj,
      fun j hj => argmaxFirst_strict_before scores j hj⟩
  · intro sim thr kf entry c hc
    simp only [candidateFor] at hc
    by_cases hge : (kf.map (fun x => sim entry.1 x.1)).getD
        (argmaxFirst (kf.map (fun x => sim entry.1 x.1))) 0 ≥ thr
    · rw [if_pos hge] at hc
      cases hg : kf.get? (argmaxFirst (kf.map (fun x => sim entry.1 x.1))) with
      | none =>
        rw [hg] at hc
        exact Option.noConfusion hc
      | some kt =>
        rw [hg] at hc
        obtain rfl := Option.some.inj hc
        exact ⟨kt, rfl, rfl, rfl⟩
    · rw [if_neg hge] at hc
      exact Option.noConfusion hc
  · norm_num [findMatches, polyFiltered, kalshiFiltered, candidateFor, argmaxFirst,
      pyOrQ, SIMILARITY_THRESHOLD, kalshiFullTitle, List.filterMap_cons, List.filterMap_nil]

/-- Witness for C7: the argmax policy on the concrete score list `[1, 2]`. -/
theorem findMatches_best_match_policy_witness :
    argmaxFirst [(1 : ℚ), 2] < [(1 : ℚ), 2].length ∧
    (∀ j < [(1 : ℚ), 2].length,
      [(1 : ℚ), 2].getD j 0 ≤ [(1 : ℚ), 2].getD (argmaxFirst [(1 : ℚ), 2]) 0) ∧
    (∀ j < argmaxFirst [(1 : ℚ), 2],
      [(1 : ℚ), 2].getD j 0 < [(1 : ℚ), 2].getD (argmaxFirst [(1 : ℚ), 2]) 0) :=
  findMatches_best_match_policy.2.1 [(1 : ℚ), 2] (by simp)

/-- C8: `find_matches` returns `[]` and never raises when either input list
is empty, when no source market carries a `question` field, or when no
target market carries a `title` field. -/
theorem findMatches_empty_guards :
    (∀ sim kalshis θ, findMatches sim [] kalshis θ = []) ∧
    (∀ sim polys θ, findMatches sim polys [] θ = []) ∧
    (∀ sim polys kalshis θ, (∀ p ∈ polys, p.question = none) →
      findMatches sim polys kalshis θ = []) ∧
    (∀ sim polys kalshis θ, (∀ k ∈ kalshis, k.title = none) →
      findMatches sim polys kalshis θ = []) := by
  refine ⟨?_, ?_, ?_, ?_⟩
  · intro sim kalshis θ
    rfl
  · intro sim polys θ
    cases polys <;> rfl
  · intro sim polys kalshis θ h
    have hpf : polyFiltered polys = [] := by
      unfold polyFiltered
      rw [List.filterMap_eq_nil_iff]
      intro p hp
      simp [h p hp]
    cases polys with
    | nil => rfl
    | cons p ps =>
      cases kalshis with
      | nil => rfl
      | cons k ks =>
        simp [findMatches, hpf]
  · intro sim polys kalshis θ h
    have hkf : kalshiFiltered kalshis = [] := by
      unfold kalshiFiltered
      rw [List.filterMap_eq_nil_iff]
      intro k hk
      simp [h k hk]
    cases polys with
    | nil => rfl
    | cons p ps =>
      cases kalshis with
      | nil => rfl
      | cons k ks =>
        simp [findMatches, hkf]

/-- Witness for C8: a source list whose only market has no `question`. -/
theorem findMatches_empty_guards_witness :
    findMatches (fun _ _ => 1) [(⟨none, some "c"⟩ : PolyMarket)]
      [(⟨some "Title", none, some "KT"⟩ : KalshiMarket)] none = [] :=
  findMatches_empty_guards.2.2.1 (fun _ _ => 1) [(⟨none, some "c"⟩ : PolyMarket)]
    [(⟨some "Title", none, some "KT"⟩ : KalshiMarket)] none (by simp)

/-- C9: a zero passed for a tuning parameter is falsy under Python `or`, so
the configuration default is silently substituted: a detector built with
zero margins/fees equals one built with the defaults, and a similarity
threshold of `0.0` becomes `config.SIMILARITY_THRESHOLD` (so a pair scoring
`0.5` is still rejected rather than every pair being accepted). -/
theorem zero_tuning_parameter_uses_default :
    mkArbitrageDetector (some 0) (some 0) (some 0) = mkArbitrageDetector none none none ∧
    mkArbitrageDetector none none none =
      ⟨MIN_PROFIT_MARGIN, KALSHI_FEE_PERCENT, POLYMARKET_GAS_FEE_USD⟩ ∧
    pyOrQ (some 0) SIMILARITY_THRESHOLD = SIMILARITY_THRESHOLD ∧
    (∀ sim polys kalshis, findMatches sim polys kalshis (some 0) =
      findMatches sim polys kalshis none) ∧
    findMatches (fun _ _ => 1/2) [(⟨some "q", some "c"⟩ : PolyMarket)]
      [(⟨some "Title", none, some "KT"⟩ : KalshiMarket)] (some 0) = [] := by
  refine ⟨?_, rfl, ?_, ?_, ?_⟩
  · simp [mkArbitrageDetector, pyOrQ]
  · simp [pyOrQ]
  · intro sim polys kalshis
    have hθ : pyOrQ (some 0) SIMILARITY_THRESHOLD = pyOrQ none SIMILARITY_THRESHOLD := by
      simp [pyOrQ]
    simp only [findMatches, hθ]
  · norm_num [findMatches, polyFiltered, kalshiFiltered, candidateFor, argmaxFirst,
      pyOrQ, SIMILARITY_THRESHOLD, kalshiFullTitle, List.filterMap_cons, List.filterMap_nil]

/-- C10: `get_match_count` swallows a database read failure and returns `0`,
indistinguishable from an empty store, while `store_matches`,
`get_all_matches` and `clear_all_matches` re-raise on database failure. -/
theorem getMatchCount_swallows_failure (db : DatabaseManager) (ms : List MatchRow)
    (hb : db.broken = true) :
    getMatchCount db = 0 ∧
    getMatchCount ⟨false, []⟩ = 0 ∧
    getAllMatches db = .error "Database error" ∧
    storeMatches db ms = .error "Database error" ∧
    clearAllMatches db = .error "Database error" := by
  refine ⟨?_, rfl, ?_, ?_, ?_⟩ <;>
    simp [getMatchCount, countQuery, getAllMatches, storeMatches, clearAllMatches, hb]

/-- Witness for C10: a broken store holding one row counts as `0`, exactly
like a healthy empty store, while the other operations fail loudly. -/
theorem getMatchCount_swallows_failure_witness :
    getMatchCount ⟨true, [⟨"Will X happen?", "X happens", "cond-1", "KX-1", none⟩]⟩ = 0 ∧
    getMatchCount ⟨false, []⟩ = 0 ∧
    getAllMatches ⟨true, [⟨"Will X happen?", "X happens", "cond-1", "KX-1", none⟩]⟩ =
      .error "Database error" ∧
    storeMatches ⟨true, [⟨"Will X happen?", "X happens", "cond-1", "KX-1", none⟩]⟩ [] =
      .error "Database error" ∧
    clearAllMatches ⟨true, [⟨"Will X happen?", "X happens", "cond-1", "KX-1", none⟩]⟩ =
      .error "Database error" :=
  getMatchCount_swallows_failure
    ⟨true, [⟨"Will X happen?", "X happens", "cond-1", "KX-1", none⟩]⟩ [] rfl
